import Mathlib

/-!
Verification of the Keras `Hashing` preprocessing layer
(`keras/layers/preprocessing/hashing.py`).

The layer is embedded shallowly:

* A scalar value (a cell of an input tensor) is either a string or an
  integer (`Scalar`).
* The two 64-bit hash primitives, `FarmHash64` and keyed `SipHash64`, live
  in TensorFlow, outside the repository.  Every definition and theorem is
  parameterised over them (`farm : String → Nat`,
  `sip : List Scalar → String → Nat`), so the results hold for the real
  hash functions in particular.  The TensorFlow bucket ops
  `tf.strings.to_hash_bucket_fast` / `to_hash_bucket_strong` reduce the
  64-bit hash modulo `num_buckets`; that reduction is modelled explicitly
  (`toHashBucketFast`, `toHashBucketStrong`).
* Tensor-level operations used by `_hash_values_to_bins`
  (`tf.equal`, `tf.as_string`, the bucket op, `tf.add`, `tf.where`) are all
  elementwise, so the pipeline is embedded as a `List.map` of a per-value
  function `hashValueToBin`.
* Python `raise ValueError` is embedded as `Except.error` with a dedicated
  error type per raise site, following the spec's taxonomy
  (`ConfigError` for the constructor, `UnsupportedInputError` for
  `_process_input_list`).
-/

/-- A scalar cell of an input tensor: TensorFlow string or integer dtype. -/
inductive Scalar where
  | str (s : String)
  | int (n : Int)
deriving DecidableEq, Repr

/-- The `salt` constructor argument as the Python caller can pass it:
`None`, a single integer, a tuple/list (of arbitrary scalars — the source
checks only the length, not the element types), or some other object such
as a string (the `else` branch of the validation). -/
inductive SaltArg where
  | sNone
  | sInt (s : Int)
  | sList (xs : List Scalar)
  | sStr (s : String)
deriving DecidableEq, Repr

/-- Construction-time errors (`raise ValueError` in `Hashing.__init__`);
the spec calls these `ConfigError`. -/
inductive ConfigError where
  | invalidNumBins  -- "`num_bins` cannot be `None` or non-positive values."
  | invalidSalt     -- "`salt can only be a tuple of size 2 integers, or a single integer"
deriving DecidableEq, Repr

/-- Call-time errors (`raise ValueError` in `Hashing._process_input_list`);
the spec calls these `UnsupportedInputError`. -/
inductive UnsupportedInputError where
  | raggedInput    -- "Hashing with ragged input is not supported yet."
  | crossWithMask  -- "Cross hashing with a mask_value is not supported yet"
deriving DecidableEq, Repr

/-- `_DEFAULT_SALT_KEY = [0xDECAFCAFFE, 0xDECAFCAFFE]` (the default key of
`tf.sparse.cross_hashed`). -/
def DEFAULT_SALT_KEY : List Scalar :=
  [Scalar.int 0xDECAFCAFFE, Scalar.int 0xDECAFCAFFE]

/-- The state of a constructed `Hashing` layer: the fields set by
`Hashing.__init__` (`self.num_bins`, `self.mask_value`, `self.strong_hash`,
`self.salt`).  `num_bins` is positive whenever the constructor succeeded. -/
structure Hashing where
  numBins : Nat
  maskValue : Option Scalar
  strongHash : Bool
  salt : List Scalar
deriving DecidableEq, Repr

namespace Hashing

/-- `Hashing.__init__(num_bins, mask_value, salt)`.  `num_bins` is `Option`
because Python permits passing `None`.  Mirrors the source:
reject `None`/non-positive `num_bins`; `strong_hash = salt is not None`;
a tuple/list salt is accepted iff its length is 2 (element types are not
inspected), a single integer `s` becomes `[s, s]`, anything else raises;
with no salt the default key is stored. -/
def init (numBins : Option Int) (maskValue : Option Scalar) (salt : SaltArg) :
    Except ConfigError Hashing :=
  match numBins with
  | none => .error .invalidNumBins
  | some n =>
    if n ≤ 0 then .error .invalidNumBins
    else
      match salt with
      | .sNone => .ok ⟨n.toNat, maskValue, false, DEFAULT_SALT_KEY⟩
      | .sInt s => .ok ⟨n.toNat, maskValue, true, [Scalar.int s, Scalar.int s]⟩
      | .sList xs =>
        if xs.length = 2 then .ok ⟨n.toNat, maskValue, true, xs⟩
        else .error .invalidSalt
      | .sStr _ => .error .invalidSalt

/-- `Hashing.get_config`: the layer-specific part of the persisted
configuration, `{'num_bins': self.num_bins, 'salt': self.salt,
'mask_value': self.mask_value}`.  Note the stored (resolved) salt is
serialized, as a 2-element list, even when the layer was built without a
salt. -/
def getConfig (h : Hashing) : Option Int × Option Scalar × SaltArg :=
  (some (h.numBins : Int), h.maskValue, SaltArg.sList h.salt)

/-- Reconstructing a layer from a persisted configuration
(`Hashing(**config)` as the framework's `from_config` does). -/
def fromConfig (c : Option Int × Option Scalar × SaltArg) :
    Except ConfigError Hashing :=
  init c.1 c.2.1 c.2.2

end Hashing

/-- Modelled from the spec (§4.1–4.2): `tf.strings.to_hash_bucket_fast`,
which is FarmHash64 of the input string reduced modulo `num_buckets`.  The
hash itself is external to the repository and stays abstract (`farm`). -/
def toHashBucketFast (farm : String → Nat) (s : String) (numBuckets : Nat) : Nat :=
  farm s % numBuckets

/-- Modelled from the spec (§4.1–4.2): `tf.strings.to_hash_bucket_strong`
with a fixed `key`, which is keyed SipHash64 reduced modulo `num_buckets`.
The hash itself is external and stays abstract (`sip`). -/
def toHashBucketStrong (sip : List Scalar → String → Nat) (key : List Scalar)
    (s : String) (numBuckets : Nat) : Nat :=
  sip key s % numBuckets

namespace Hashing

/-- `Hashing._get_string_to_hash_bucket_fn`: FarmHash64 bucketing when
`strong_hash` is false, else SipHash64 bucketing with `self.salt` as the
key (`functools.partial(tf.strings.to_hash_bucket_strong, key=self.salt)`). -/
def getStringToHashBucketFn (farm : String → Nat)
    (sip : List Scalar → String → Nat) (h : Hashing) : String → Nat → Nat :=
  if h.strongHash then toHashBucketStrong sip h.salt else toHashBucketFast farm

/-- The raw 64-bit hash the selected bucket op applies before the modulo. -/
def rawHash (farm : String → Nat) (sip : List Scalar → String → Nat)
    (h : Hashing) (s : String) : Nat :=
  if h.strongHash then sip h.salt s else farm s

/-- `tf.as_string` on integer dtypes: every value is rendered to its
canonical decimal representation before hashing; string values pass
through unchanged. -/
def scalarHashString : Scalar → String
  | .str s => s
  | .int n => toString n

/-- `Hashing._hash_values_to_bins`, per value.  All the tensor ops it uses
are elementwise, so the tensor pipeline is this function mapped over the
values.  Mirrors the source: the zeroth bin is reserved for the mask only
when `mask_value` is set and `num_bins > 1` (`num_available_bins -= 1`,
`mask = tf.equal(values, mask_value)` — computed before the integer→string
conversion); integer values are rendered to strings; the selected bucket op
is applied with `num_available_bins`; finally, when the mask is active, one
is added to every bucket and masked positions are zeroed
(`tf.where(mask, zeros, values)`). -/
def hashValueToBin (farm : String → Nat) (sip : List Scalar → String → Nat)
    (h : Hashing) (v : Scalar) : Nat :=
  let strToHashBucket := getStringToHashBucketFn farm sip h
  let maskActive : Bool := h.maskValue.isSome && decide (1 < h.numBins)
  let numAvailableBins := if maskActive then h.numBins - 1 else h.numBins
  let hashed := strToHashBucket (scalarHashString v) numAvailableBins
  if maskActive then
    if h.maskValue = some v then 0 else hashed + 1
  else hashed

/-- `Hashing._hash_values_to_bins` on a flat sequence of values. -/
def hashValuesToBins (farm : String → Nat) (sip : List Scalar → String → Nat)
    (h : Hashing) (values : List Scalar) : List Nat :=
  values.map (hashValueToBin farm sip h)

end Hashing

/-- `tf.SparseTensor`: coordinates, values aligned with them, dense shape. -/
structure SparseTensor where
  indices : List (List Int)
  values : List Scalar
  denseShape : List Int
deriving DecidableEq, Repr

/-- A dense `tf.Tensor` of scalars (the shape bookkeeping is irrelevant to
the hashing pipeline, which is elementwise on the flat values). -/
structure DenseTensor where
  values : List Scalar
deriving DecidableEq, Repr

/-- `tf.RaggedTensor`: variable-length rows of scalars. -/
structure RaggedTensor where
  rows : List (List Scalar)
deriving DecidableEq, Repr

/-- One preprocessed input column: dense, sparse or ragged tensor. -/
inductive Column where
  | dense (t : DenseTensor)
  | sparse (st : SparseTensor)
  | ragged (rt : RaggedTensor)
deriving DecidableEq, Repr

/-- `isinstance(inp, tf.RaggedTensor)`. -/
def Column.isRagged : Column → Bool
  | .ragged _ => true
  | _ => false

/-- `isinstance(inp, tf.SparseTensor)`. -/
def Column.isSparse : Column → Bool
  | .sparse _ => true
  | _ => false

/-- What the Python caller can pass to `Hashing.call`: a plain Python
list/tuple (whose elements are again such values), a TensorFlow tensor
(dense, sparse or ragged), or a numpy ndarray. -/
inductive RawInput where
  | rList (xs : List RawInput)
  | rTensor (c : Column)
  | rNdarray (vals : List Scalar)

/-- `tf.is_tensor(inp) or isinstance(inp, np.ndarray)`: true for tensors
(including sparse and ragged) and ndarrays, false for plain lists/tuples. -/
def RawInput.isTensorOrNdarray : RawInput → Bool
  | .rTensor _ => true
  | .rNdarray _ => true
  | .rList _ => false

/-- An output column: the input structure with values replaced by `int64`
bucket indices. -/
inductive OutColumn where
  | dense (values : List Nat)
  | sparse (indices : List (List Int)) (values : List Nat) (denseShape : List Int)
  | ragged (rows : List (List Nat))
deriving DecidableEq, Repr

/-- The result triple of the external `tf.raw_ops.SparseCrossHashed` op:
output indices, output bucket values, output dense shape. -/
structure CrossResult where
  indices : List (List Int)
  values : List Nat
  denseShape : List Int
deriving DecidableEq, Repr

namespace Hashing

/-- `Hashing._preprocess_single_input`: plain lists/tuples and ndarrays are
converted to a dense tensor with `tf.convert_to_tensor` (an external
TensorFlow routine, kept abstract as `conv`); tensors pass through. -/
def preprocessSingleInput (conv : RawInput → DenseTensor) : RawInput → Column
  | .rList xs => .dense (conv (.rList xs))
  | .rNdarray vs => .dense (conv (.rNdarray vs))
  | .rTensor c => c

/-- The result of `Hashing._preprocess_inputs`: either a Python list of
columns (to be cross-hashed) or a single column. -/
inductive Preprocessed where
  | multi (cs : List Column)
  | single (c : Column)
deriving DecidableEq, Repr

/-- `Hashing._preprocess_inputs`: a tuple/list is kept as a list of columns
only when at least one of its elements is already a tensor or an ndarray;
otherwise the whole input is preprocessed as a single column. -/
def preprocessInputs (conv : RawInput → DenseTensor) (inputs : RawInput) :
    Preprocessed :=
  match inputs with
  | .rList xs =>
    if xs.any RawInput.isTensorOrNdarray then
      .multi (xs.map (preprocessSingleInput conv))
    else .single (preprocessSingleInput conv (.rList xs))
  | inp => .single (preprocessSingleInput conv inp)

/-- `Hashing._process_input_list`: reject ragged columns, then reject a
configured `mask_value`; otherwise partition into sparse and dense inputs,
invoke the external `tf.raw_ops.SparseCrossHashed` op (abstract parameter
`crossOp`, fed exactly the arguments the source passes), and densify the
sparse result with `tf.sparse.to_dense` (abstract `toDense`) when every
input was dense. -/
def processInputList
    (crossOp : List (List (List Int)) → List (List Scalar) → List (List Int) →
      List Column → Nat → Bool → List Scalar → CrossResult)
    (toDense : CrossResult → List Nat)
    (h : Hashing) (inputs : List Column) :
    Except UnsupportedInputError OutColumn :=
  if inputs.any Column.isRagged then .error .raggedInput
  else if h.maskValue.isSome then .error .crossWithMask
  else
    let sparseInputs := inputs.filterMap fun c =>
      match c with | .sparse st => some st | _ => none
    let denseInputs := inputs.filter fun c => !c.isSparse
    let allDense := sparseInputs.isEmpty
    let out := crossOp (sparseInputs.map SparseTensor.indices)
      (sparseInputs.map SparseTensor.values)
      (sparseInputs.map SparseTensor.denseShape)
      denseInputs h.numBins h.strongHash h.salt
    if allDense then .ok (.dense (toDense out))
    else .ok (.sparse out.indices out.values out.denseShape)

/-- `Hashing.call`: preprocess, then dispatch — a list goes to
`_process_input_list`; a sparse tensor is rebuilt with the same indices and
dense shape and hashed values; anything else (dense or ragged) is hashed
elementwise. -/
def call (farm : String → Nat) (sip : List Scalar → String → Nat)
    (conv : RawInput → DenseTensor)
    (crossOp : List (List (List Int)) → List (List Scalar) → List (List Int) →
      List Column → Nat → Bool → List Scalar → CrossResult)
    (toDense : CrossResult → List Nat)
    (h : Hashing) (inputs : RawInput) :
    Except UnsupportedInputError OutColumn :=
  match preprocessInputs conv inputs with
  | .multi cs => processInputList crossOp toDense h cs
  | .single (.sparse st) =>
    .ok (.sparse st.indices (hashValuesToBins farm sip h st.values) st.denseShape)
  | .single (.dense dt) => .ok (.dense (hashValuesToBins farm sip h dt.values))
  | .single (.ragged rt) => .ok (.ragged (rt.rows.map (hashValuesToBins farm sip h)))

end Hashing

/-! ## Helper lemmas -/

/-- The selected bucket op is the selected raw hash reduced modulo the
number of buckets. -/
theorem getStringToHashBucketFn_eq (farm : String → Nat)
    (sip : List Scalar → String → Nat) (h : Hashing) (s : String) (n : Nat) :
    Hashing.getStringToHashBucketFn farm sip h s n
      = Hashing.rawHash farm sip h s % n := by
  by_cases hs : h.strongHash <;>
    simp [Hashing.getStringToHashBucketFn, Hashing.rawHash, toHashBucketFast,
      toHashBucketStrong, hs]

/-- The selected bucket op yields a bucket below the number of buckets. -/
theorem getStringToHashBucketFn_lt (farm : String → Nat)
    (sip : List Scalar → String → Nat) (h : Hashing) (s : String) (n : Nat)
    (hn : 0 < n) :
    Hashing.getStringToHashBucketFn farm sip h s n < n := by
  rw [getStringToHashBucketFn_eq]
  exact Nat.mod_lt _ hn

/-- Per-value buckets are always strictly below `num_bins`, on both the
masked and the unmasked path. -/
theorem hashValueToBin_lt (farm : String → Nat)
    (sip : List Scalar → String → Nat) (h : Hashing) (hpos : 0 < h.numBins)
    (v : Scalar) :
    Hashing.hashValueToBin farm sip h v < h.numBins := by
  by_cases hm : (h.maskValue.isSome && decide (1 < h.numBins)) = true
  · have h1 : 1 < h.numBins := by
      rcases Bool.and_eq_true _ _ |>.mp hm with ⟨_, hd⟩
      exact of_decide_eq_true hd
    have hb := getStringToHashBucketFn_lt farm sip h
      (Hashing.scalarHashString v) (h.numBins - 1) (by omega)
    simp only [Hashing.hashValueToBin, hm, if_true]
    split
    · exact hpos
    · omega
  · have hb := getStringToHashBucketFn_lt farm sip h
      (Hashing.scalarHashString v) h.numBins hpos
    simp only [Hashing.hashValueToBin, hm, if_false]
    exact hb

/-- A successful construction forces `num_bins` to have been positive, and
stores it unchanged. -/
theorem init_ok_numBins (n : Int) (mv : Option Scalar) (s : SaltArg)
    (h : Hashing) (hok : Hashing.init (some n) mv s = .ok h) :
    0 < n ∧ h.numBins = n.toNat := by
  by_cases hn : n ≤ 0
  · simp [Hashing.init, hn] at hok
  · refine ⟨by omega, ?_⟩
    cases s with
    | sNone =>
      simp [Hashing.init, hn] at hok
      simp [← hok]
    | sInt s =>
      simp [Hashing.init, hn] at hok
      simp [← hok]
    | sList xs =>
      by_cases hl : xs.length = 2 <;> simp [Hashing.init, hn, hl] at hok
      simp [← hok]
    | sStr s =>
      simp [Hashing.init, hn] at hok

/-! ## Claims -/

/-- C4: constructing a hasher with `num_bins` missing (`None`), zero, or
negative fails with `ConfigError` at construction time, whatever the other
arguments; and every successfully constructed hasher has a positive
`num_bins` and every per-value hashing call returns a valid bucket (the
per-value pipeline is total — no error is possible at hashing time). -/
theorem num_bins_validated_at_construction (farm : String → Nat)
    (sip : List Scalar → String → Nat) (mv : Option Scalar) (s : SaltArg) :
    Hashing.init none mv s = .error .invalidNumBins
    ∧ (∀ n : Int, n ≤ 0 → Hashing.init (some n) mv s = .error .invalidNumBins)
    ∧ (∀ (n : Int) (h : Hashing), Hashing.init (some n) mv s = .ok h →
        0 < n ∧ 0 < h.numBins ∧
          ∀ v : Scalar, Hashing.hashValueToBin farm sip h v < h.numBins) := by
  refine ⟨rfl, ?_, ?_⟩
  · intro n hn
    simp [Hashing.init, hn]
  · intro n h hok
    obtain ⟨hn, hnb⟩ := init_ok_numBins n mv s h hok
    have hpos : 0 < h.numBins := by omega
    exact ⟨hn, hpos, fun v => hashValueToBin_lt farm sip h hpos v⟩

/-- Witness for C4 at concrete inputs. -/
theorem num_bins_validated_at_construction_witness :
    Hashing.init (some 0) none .sNone = .error .invalidNumBins
    ∧ Hashing.hashValueToBin (fun _ => 0) (fun _ _ => 0)
        ⟨3, none, false, DEFAULT_SALT_KEY⟩ (Scalar.str "A") < 3 := by
  constructor
  · exact (num_bins_validated_at_construction (fun _ => 0) (fun _ _ => 0)
      none .sNone).2.1 0 (by decide)
  · exact ((num_bins_validated_at_construction (fun _ => 0) (fun _ _ => 0)
      none .sNone).2.2 3 ⟨3, none, false, DEFAULT_SALT_KEY⟩ rfl).2.2 (Scalar.str "A")

/-- C5 counterexample: a tuple/list salt whose two elements are NOT
integers (here two strings) is accepted by the constructor — the source
checks only `len(salt) == 2`, never the element types — refuting the
claimed "fails iff the salt is not exactly 2 integers and not a single
integer". -/
theorem salt_validation_counterexample :
    Hashing.init (some 3) none (.sList [Scalar.str "a", Scalar.str "b"])
      = .ok ⟨3, none, true, [Scalar.str "a", Scalar.str "b"]⟩ := rfl

/-- C5 amended: for positive `num_bins`, construction fails with the
invalid-salt `ConfigError` iff the salt is neither `None`, nor a single
integer, nor a tuple/list of length exactly 2 (element types are not
checked); every accepted salt is normalized at construction into a fixed
2-element structure. -/
theorem salt_shape_validation_amended (numBins : Int) (mv : Option Scalar)
    (salt : SaltArg) (hpos : 0 < numBins) :
    (Hashing.init (some numBins) mv salt = .error .invalidSalt
      ↔ (match salt with
         | .sNone => False
         | .sInt _ => False
         | .sList xs => xs.length ≠ 2
         | .sStr _ => True))
    ∧ ∀ h : Hashing, Hashing.init (some numBins) mv salt = .ok h →
        h.salt.length = 2 := by
  have hn : ¬ numBins ≤ 0 := by omega
  cases salt with
  | sNone =>
    refine ⟨by simp [Hashing.init, hn], ?_⟩
    intro h hok
    simp [Hashing.init, hn] at hok
    simp [← hok, DEFAULT_SALT_KEY]
  | sInt s =>
    refine ⟨by simp [Hashing.init, hn], ?_⟩
    intro h hok
    simp [Hashing.init, hn] at hok
    simp [← hok]
  | sList xs =>
    by_cases hl : xs.length = 2
    · refine ⟨by simp [Hashing.init, hn, hl], ?_⟩
      intro h hok
      simp [Hashing.init, hn, hl] at hok
      simp [← hok, hl]
    · refine ⟨by simp [Hashing.init, hn, hl], ?_⟩
      intro h hok
      simp [Hashing.init, hn, hl] at hok
  | sStr s =>
    refine ⟨by simp [Hashing.init, hn], ?_⟩
    intro h hok
    simp [Hashing.init, hn] at hok

/-- Witness for the amended C5 at concrete inputs. -/
theorem salt_shape_validation_amended_witness :
    Hashing.init (some 3) none (.sList [Scalar.int 1]) = .error .invalidSalt
    ∧ ∀ h : Hashing, Hashing.init (some 3) none (.sInt 7) = .ok h →
        h.salt.length = 2 :=
  ⟨(salt_shape_validation_amended 3 none (.sList [Scalar.int 1])
      (by decide)).1.mpr (by decide),
   (salt_shape_validation_amended 3 none (.sInt 7) (by decide)).2⟩

/-- C7: a hasher constructed with the single-integer salt `s` is
extensionally identical — field for field, hence bucket for bucket on
every sequence of inputs, for every pair of hash functions — to one
constructed with salt `[s, s]`, for every `num_bins` argument and mask
value. -/
theorem single_integer_salt_equiv (farm : String → Nat)
    (sip : List Scalar → String → Nat) (numBins : Option Int)
    (mv : Option Scalar) (s : Int) (values : List Scalar) :
    (Hashing.init numBins mv (.sInt s)).map
        (fun h => Hashing.hashValuesToBins farm sip h values)
      = (Hashing.init numBins mv (.sList [Scalar.int s, Scalar.int s])).map
        (fun h => Hashing.hashValuesToBins farm sip h values) := by
  have heq : Hashing.init numBins mv (.sInt s)
      = Hashing.init numBins mv (.sList [Scalar.int s, Scalar.int s]) := by
    cases numBins with
    | none => rfl
    | some n =>
      by_cases hn : n ≤ 0 <;> simp [Hashing.init, hn]
  rw [heq]

/-- C1 (code bug evaluation): a hasher built WITHOUT a salt uses the fast
hash (`strong_hash = False`), but `get_config` serializes the resolved
default salt key as an explicit 2-element salt, so rebuilding from the
persisted configuration yields a hasher with `strong_hash = True` — the
round-trip silently switches the layer from FarmHash64 to SipHash64,
violating the round-trip contract. -/
theorem roundtrip_flips_hash_selection_without_salt :
    (Hashing.init (some 3) none .sNone).map Hashing.strongHash = .ok false
    ∧ (Hashing.init (some 3) none .sNone).map Hashing.getConfig
      = .ok (some 3, none, .sList DEFAULT_SALT_KEY)
    ∧ ((Hashing.init (some 3) none .sNone).bind
        (fun h => Hashing.fromConfig h.getConfig)).map Hashing.strongHash
      = .ok true :=
  ⟨rfl, rfl, rfl⟩

/-- Unfolding of the per-value pipeline when the mask bin is reserved
(`mask_value` set and `num_bins > 1`). -/
theorem hashValueToBin_maskActive (farm : String → Nat)
    (sip : List Scalar → String → Nat) (h : Hashing) (v : Scalar)
    (hs : h.maskValue.isSome = true) (h1 : 1 < h.numBins) :
    Hashing.hashValueToBin farm sip h v
      = if h.maskValue = some v then 0
        else Hashing.rawHash farm sip h (Hashing.scalarHashString v)
              % (h.numBins - 1) + 1 := by
  have hcond : (h.maskValue.isSome && decide (1 < h.numBins)) = true := by
    simp [hs, h1]
  simp [Hashing.hashValueToBin, hcond, getStringToHashBucketFn_eq, hs, h1]

/-- Unfolding of the per-value pipeline when no mask bin is reserved
(`mask_value` unset, or `num_bins ≤ 1`). -/
theorem hashValueToBin_noMask (farm : String → Nat)
    (sip : List Scalar → String → Nat) (h : Hashing) (v : Scalar)
    (hc : (h.maskValue.isSome && decide (1 < h.numBins)) = false) :
    Hashing.hashValueToBin farm sip h v
      = Hashing.rawHash farm sip h (Hashing.scalarHashString v) % h.numBins := by
  have h1 : ¬ (h.maskValue.isSome = true ∧ 1 < h.numBins) := by
    intro ⟨ha, hb⟩
    simp [ha, hb] at hc
  simp only [Hashing.hashValueToBin, hc, Bool.false_eq_true, if_false,
    getStringToHashBucketFn_eq]

/-- C2: with a configured mask value and `num_bins > 1`, every input equal
to the mask value goes to bucket 0 and every other input goes to
`hash mod (num_bins - 1) + 1`, hence never to bucket 0; with a configured
mask value and `num_bins = 1`, every input (masked or not) goes to bucket 0
(the pipeline is total — no error). -/
theorem mask_bucket_policy (farm : String → Nat)
    (sip : List Scalar → String → Nat) (h : Hashing) (mv : Scalar)
    (hm : h.maskValue = some mv) (values : List Scalar) :
    (1 < h.numBins →
      ∀ v ∈ values,
        (v = mv → Hashing.hashValueToBin farm sip h v = 0)
        ∧ (v ≠ mv →
            Hashing.hashValueToBin farm sip h v
              = Hashing.rawHash farm sip h (Hashing.scalarHashString v)
                  % (h.numBins - 1) + 1
            ∧ Hashing.hashValueToBin farm sip h v ≠ 0))
    ∧ (h.numBins = 1 →
        Hashing.hashValuesToBins farm sip h values = values.map fun _ => 0) := by
  constructor
  · intro h1 v _
    have hs : h.maskValue.isSome = true := by simp [hm]
    rw [hashValueToBin_maskActive farm sip h v hs h1] at *
    constructor
    · intro hveq
      subst hveq
      simp [hm]
    · intro hne
      have hmask : ¬ h.maskValue = some v := by
        rw [hm]
        simp only [Option.some.injEq]
        exact fun hc => hne hc.symm
      simp [hmask]
  · intro h1
    have hc : (h.maskValue.isSome && decide (1 < h.numBins)) = false := by
      simp [h1]
    have hfun : Hashing.hashValueToBin farm sip h = fun _ => 0 := by
      funext v
      rw [hashValueToBin_noMask farm sip h v hc, h1, Nat.mod_one]
    simp [Hashing.hashValuesToBins, hfun]

/-- Witness for C2 at a concrete masked configuration. -/
theorem mask_bucket_policy_witness :
    Hashing.hashValueToBin (fun _ => 0) (fun _ _ => 0)
        ⟨3, some (Scalar.str ""), false, DEFAULT_SALT_KEY⟩ (Scalar.str "") = 0
    ∧ Hashing.hashValueToBin (fun _ => 0) (fun _ _ => 0)
        ⟨3, some (Scalar.str ""), false, DEFAULT_SALT_KEY⟩ (Scalar.str "A") ≠ 0 := by
  have H := mask_bucket_policy (fun _ => 0) (fun _ _ => 0)
      ⟨3, some (Scalar.str ""), false, DEFAULT_SALT_KEY⟩ (Scalar.str "") rfl
      [Scalar.str "", Scalar.str "A"]
  exact ⟨(H.1 (by decide) (Scalar.str "") (by decide)).1 rfl,
         ((H.1 (by decide) (Scalar.str "A") (by decide)).2 (by decide)).2⟩

/-- C6: for every positive number of buckets, both bucket ops compute
`hash mod num_buckets`, which is strictly below `num_buckets`; and for
every hasher with positive `num_bins` and every input value the returned
bucket index lies in `[0, num_bins)`, with the mask-adjusted path
additionally confined to `[1, num_bins)` for non-mask values. -/
theorem bucket_range (farm : String → Nat) (sip : List Scalar → String → Nat)
    (key : List Scalar) (s : String) (n : Nat) (hn : 0 < n) :
    toHashBucketFast farm s n = farm s % n
    ∧ toHashBucketFast farm s n < n
    ∧ toHashBucketStrong sip key s n < n
    ∧ ∀ h : Hashing, 0 < h.numBins → ∀ v : Scalar,
        Hashing.hashValueToBin farm sip h v < h.numBins
        ∧ (h.maskValue.isSome = true → 1 < h.numBins → h.maskValue ≠ some v →
            1 ≤ Hashing.hashValueToBin farm sip h v) := by
  refine ⟨rfl, Nat.mod_lt _ hn, Nat.mod_lt _ hn, ?_⟩
  intro h hpos v
  refine ⟨hashValueToBin_lt farm sip h hpos v, ?_⟩
  intro hs h1 hne
  rw [hashValueToBin_maskActive farm sip h v hs h1]
  simp [hne]

/-- Witness for C6 at concrete inputs. -/
theorem bucket_range_witness :
    toHashBucketFast (fun _ => 0) "A" 3 < 3
    ∧ Hashing.hashValueToBin (fun _ => 0) (fun _ _ => 0)
        ⟨3, none, false, DEFAULT_SALT_KEY⟩ (Scalar.str "A") < 3 := by
  have H := bucket_range (fun _ => 0) (fun _ _ => 0) DEFAULT_SALT_KEY "A" 3
    (by decide)
  exact ⟨H.2.1,
    (H.2.2.2 ⟨3, none, false, DEFAULT_SALT_KEY⟩ (by decide) (Scalar.str "A")).1⟩

/-- C8 counterexample: with `num_bins = 2` and `mask_value` equal to the
integer `42`, the integer input `42` is masked to bucket 0 (the mask
comparison runs BEFORE the integer→string rendering), while the string
input `"42"` is not masked and lands in bucket `hash mod 1 + 1 = 1` — so
the claimed equality does not hold for every configuration. -/
theorem int_string_coercion_counterexample :
    Hashing.init (some 2) (some (Scalar.int 42)) .sNone
      = .ok ⟨2, some (Scalar.int 42), false, DEFAULT_SALT_KEY⟩
    ∧ Hashing.hashValueToBin (fun _ => 0) (fun _ _ => 0)
        ⟨2, some (Scalar.int 42), false, DEFAULT_SALT_KEY⟩ (Scalar.int 42) = 0
    ∧ Hashing.hashValueToBin (fun _ => 0) (fun _ _ => 0)
        ⟨2, some (Scalar.int 42), false, DEFAULT_SALT_KEY⟩ (Scalar.str "42") = 1
    ∧ Hashing.hashValueToBin (fun _ => 0) (fun _ _ => 0)
        ⟨2, some (Scalar.int 42), false, DEFAULT_SALT_KEY⟩ (Scalar.int 42)
      ≠ Hashing.hashValueToBin (fun _ => 0) (fun _ _ => 0)
        ⟨2, some (Scalar.int 42), false, DEFAULT_SALT_KEY⟩ (Scalar.str "42") := by
  refine ⟨rfl, ?_, ?_, ?_⟩ <;> decide

/-- C8 amended: hashing the integer `n` yields the same bucket as hashing
its canonical decimal string, provided the configured mask value (if any)
is neither the integer `n` nor that decimal string — the rendering happens
before hashing and both hash functions see identical text, but the mask
comparison sees the unrendered value. -/
theorem int_string_coercion_amended (farm : String → Nat)
    (sip : List Scalar → String → Nat) (h : Hashing) (n : Int)
    (h1 : h.maskValue ≠ some (Scalar.int n))
    (h2 : h.maskValue ≠ some (Scalar.str (toString n))) :
    Hashing.hashValueToBin farm sip h (Scalar.int n)
      = Hashing.hashValueToBin farm sip h (Scalar.str (toString n)) := by
  by_cases hm : (h.maskValue.isSome && decide (1 < h.numBins)) = true
  · have hs : h.maskValue.isSome = true := (Bool.and_eq_true _ _ |>.mp hm).1
    have hlt : 1 < h.numBins :=
      of_decide_eq_true (Bool.and_eq_true _ _ |>.mp hm).2
    rw [hashValueToBin_maskActive farm sip h _ hs hlt,
      hashValueToBin_maskActive farm sip h _ hs hlt]
    simp [h1, h2, Hashing.scalarHashString]
  · rw [hashValueToBin_noMask farm sip h _ (by simpa using hm),
      hashValueToBin_noMask farm sip h _ (by simpa using hm)]
    simp [Hashing.scalarHashString]

/-- Witness for the amended C8 at concrete inputs. -/
theorem int_string_coercion_amended_witness :
    Hashing.hashValueToBin (fun s => s.length) (fun _ _ => 0)
        ⟨3, none, false, DEFAULT_SALT_KEY⟩ (Scalar.int 42)
      = Hashing.hashValueToBin (fun s => s.length) (fun _ _ => 0)
        ⟨3, none, false, DEFAULT_SALT_KEY⟩ (Scalar.str (toString (42 : Int))) :=
  int_string_coercion_amended (fun s => s.length) (fun _ _ => 0)
    ⟨3, none, false, DEFAULT_SALT_KEY⟩ 42 (by decide) (by decide)

/-- C3: for a list of two or more input columns, any ragged column makes
the call fail with the ragged `UnsupportedInputError`, and a configured
`mask_value` makes the call fail with an `UnsupportedInputError` (the
ragged error when a ragged column is also present, otherwise the
cross-with-mask error); an `Except.error` carries no output, and the
hasher, being pure immutable state, is unchanged. -/
theorem cross_preconditions
    (crossOp : List (List (List Int)) → List (List Scalar) → List (List Int) →
      List Column → Nat → Bool → List Scalar → CrossResult)
    (toDense : CrossResult → List Nat)
    (h : Hashing) (inputs : List Column) (hlen : 2 ≤ inputs.length) :
    (inputs.any Column.isRagged = true →
      Hashing.processInputList crossOp toDense h inputs = .error .raggedInput)
    ∧ (h.maskValue.isSome = true →
        ∃ e : UnsupportedInputError,
          Hashing.processInputList crossOp toDense h inputs = .error e) := by
  constructor
  · intro hr
    simp [Hashing.processInputList, hr]
  · intro hmv
    by_cases hr : inputs.any Column.isRagged = true
    · exact ⟨.raggedInput, by simp [Hashing.processInputList, hr]⟩
    · exact ⟨.crossWithMask, by simp [Hashing.processInputList, hr, hmv]⟩

/-- Witness for C3 at concrete inputs. -/
theorem cross_preconditions_witness :
    Hashing.processInputList (fun _ _ _ _ _ _ _ => ⟨[], [], []⟩) (fun _ => [])
        ⟨3, none, false, DEFAULT_SALT_KEY⟩
        [Column.ragged ⟨[[Scalar.str "A"]]⟩, Column.dense ⟨[Scalar.str "B"]⟩]
      = .error .raggedInput
    ∧ ∃ e : UnsupportedInputError,
        Hashing.processInputList (fun _ _ _ _ _ _ _ => ⟨[], [], []⟩) (fun _ => [])
          ⟨3, some (Scalar.str ""), false, DEFAULT_SALT_KEY⟩
          [Column.dense ⟨[Scalar.str "A"]⟩, Column.dense ⟨[Scalar.str "B"]⟩]
        = .error e := by
  constructor
  · exact (cross_preconditions (fun _ _ _ _ _ _ _ => ⟨[], [], []⟩) (fun _ => [])
      ⟨3, none, false, DEFAULT_SALT_KEY⟩
      [Column.ragged ⟨[[Scalar.str "A"]]⟩, Column.dense ⟨[Scalar.str "B"]⟩]
      (by decide)).1 (by decide)
  · exact (cross_preconditions (fun _ _ _ _ _ _ _ => ⟨[], [], []⟩) (fun _ => [])
      ⟨3, some (Scalar.str ""), false, DEFAULT_SALT_KEY⟩
      [Column.dense ⟨[Scalar.str "A"]⟩, Column.dense ⟨[Scalar.str "B"]⟩]
      (by decide)).2 rfl

/-- C9: calling the layer on a single sparse input yields a sparse output
with exactly the input's coordinates and dense shape; only the values are
replaced, elementwise, by their bucket indices, so entries are neither
added nor removed (the output has as many values as the input). -/
theorem sparse_frame_preservation (farm : String → Nat)
    (sip : List Scalar → String → Nat) (conv : RawInput → DenseTensor)
    (crossOp : List (List (List Int)) → List (List Scalar) → List (List Int) →
      List Column → Nat → Bool → List Scalar → CrossResult)
    (toDense : CrossResult → List Nat)
    (h : Hashing) (st : SparseTensor) :
    Hashing.call farm sip conv crossOp toDense h (.rTensor (.sparse st))
      = .ok (.sparse st.indices
          (st.values.map (Hashing.hashValueToBin farm sip h)) st.denseShape)
    ∧ (st.values.map (Hashing.hashValueToBin farm sip h)).length
      = st.values.length :=
  ⟨rfl, by simp⟩

/-- C10: a Python tuple/list is dispatched to multi-column crossing iff at
least one of its elements is already a tensor or an ndarray; a plain
nested list with no tensor or ndarray elements is converted to one dense
tensor and hashed as a single column, so it can never reach the crossing
path or its `UnsupportedInputError` preconditions. -/
theorem input_dispatch (farm : String → Nat)
    (sip : List Scalar → String → Nat) (conv : RawInput → DenseTensor)
    (crossOp : List (List (List Int)) → List (List Scalar) → List (List Int) →
      List Column → Nat → Bool → List Scalar → CrossResult)
    (toDense : CrossResult → List Nat)
    (h : Hashing) (xs : List RawInput)
    (hplain : xs.any RawInput.isTensorOrNdarray = false) :
    Hashing.preprocessInputs conv (.rList xs)
      = .single (.dense (conv (.rList xs)))
    ∧ Hashing.call farm sip conv crossOp toDense h (.rList xs)
      = .ok (.dense (Hashing.hashValuesToBins farm sip h (conv (.rList xs)).values))
    ∧ ∀ ys : List RawInput, ys.any RawInput.isTensorOrNdarray = true →
        Hashing.preprocessInputs conv (.rList ys)
          = .multi (ys.map (Hashing.preprocessSingleInput conv)) := by
  refine ⟨?_, ?_, ?_⟩
  · simp [Hashing.preprocessInputs, hplain, Hashing.preprocessSingleInput]
  · simp [Hashing.call, Hashing.preprocessInputs, hplain,
      Hashing.preprocessSingleInput]
  · intro ys hy
    simp [Hashing.preprocessInputs, hy]

/-- Witness for C10 at concrete inputs: a nested plain list is hashed as a
single dense column. -/
theorem input_dispatch_witness :
    Hashing.call (fun _ => 0) (fun _ _ => 0) (fun _ => ⟨[Scalar.str "A"]⟩)
        (fun _ _ _ _ _ _ _ => ⟨[], [], []⟩) (fun _ => [])
        ⟨3, none, false, DEFAULT_SALT_KEY⟩ (.rList [.rList [], .rList []])
      = .ok (.dense [0]) := by
  exact (input_dispatch (fun _ => 0) (fun _ _ => 0) (fun _ => ⟨[Scalar.str "A"]⟩)
    (fun _ _ _ _ _ _ _ => ⟨[], [], []⟩) (fun _ => [])
    ⟨3, none, false, DEFAULT_SALT_KEY⟩ [.rList [], .rList []] rfl).2.1
